import Mathlib

/-!
The `spring-version` command: the resolvers, the dependency flattener and the orchestrator

A shallow embedding of `main.go`.  Go `string` values are embedded as Lean
`String`, Go slices as `List`, a Go `error` as the text of its message, and a
function returning `(T, error)` as `Except String T`.  Effects (standard
output, the GitHub output file, HTTP requests) are threaded explicitly through
a `World` value; what the outside world answers is read from an `Env`.
-/

namespace SpringVersion

/-! ## Library functions used by the program -/

/-- Pieces of a character sequence between occurrences of `sep`
(`strings.Split` with a one-character separator): a sequence without the
separator gives one piece, the sequence itself. -/
def splitChars (sep : Char) : List Char → List (List Char)
  | [] => [[]]
  | c :: cs =>
    if c = sep then [] :: splitChars sep cs
    else
      match splitChars sep cs with
      | [] => [[c]]
      | p :: ps => (c :: p) :: ps

/-- Go `strings.Split(s, sep)` for a separator of one character. -/
def stringsSplit (s : String) (sep : Char) : List String :=
  (splitChars sep s.data).map String.mk

/-- Go `strings.Join(elems, sep)`: the elements with `sep` between
neighbours. -/
def stringsJoin : List String → String → String
  | [], _ => ""
  | [x], _ => x
  | x :: y :: rest, sep => x ++ sep ++ stringsJoin (y :: rest) sep

/-- Go `strings.HasPrefix(s, prefix)`. -/
def stringsHasPrefix (s pre : String) : Bool :=
  pre.data.isPrefixOf s.data

/-- The fragment of Go `fmt.Sprintf` and `fmt.Errorf` the program uses: every
`%s` of the format is replaced by the next argument, and so is `%w`, whose
argument is an error, embedded as its text; every other character is copied.
The program always passes as many arguments as the format has verbs. -/
def sprintfChars : List Char → List String → List Char
  | [], _ => []
  | '%' :: 's' :: rest, a :: as => a.data ++ sprintfChars rest as
  | '%' :: 'w' :: rest, a :: as => a.data ++ sprintfChars rest as
  | c :: rest, as => c :: sprintfChars rest as

/-- Go `fmt.Sprintf(format, a...)` (and the text of `fmt.Errorf`) restricted
to the verbs `%s` and `%w`. -/
def sprintf (format : String) (a : List String) : String :=
  String.mk (sprintfChars format.data a)

/-! ## Data model -/

/-- One element of `BootMetadata.Embedded.Releases`.  Only `Version` and
`Current` are ever read by the program; the remaining JSON fields
(`apiDocUrl`, `referenceDocUrl`, `status`, `_links`) are left out. -/
structure Release where
  Version : String
  Current : Bool
  deriving DecidableEq, Repr

/-- The Go type `BootMetadata`; `Releases` is `Embedded.Releases`. -/
structure BootMetadata where
  Releases : List Release
  deriving DecidableEq, Repr

/-- One element of `StarterMetadata.Type.Values`.  Only `ID` and `Action` are
ever read by the program. -/
structure TypeValue where
  ID : String
  Action : String
  deriving DecidableEq, Repr

/-- The Go type `StarterMetadata`; `Values` is `Type.Values`. -/
structure StarterMetadata where
  Values : List TypeValue
  deriving DecidableEq, Repr

/-- The Go type `Metadata`. -/
structure Metadata where
  Starter : String
  Boot : String
  Insecure : Bool
  deriving DecidableEq, Repr

/-- The Go type `Config`. -/
structure Config where
  Metadata : Metadata
  BootVersion : String
  TypeID : String
  Dependencies : List String
  Output : String
  deriving DecidableEq, Repr

deriving instance DecidableEq for Except

def outputStdout : String := "stdout"

def outputGithub : String := "github"

/-! ## Resolvers and flattener -/

/-- The Go function `contains`: whether `target` is an element of `source`. -/
def contains : List String → String → Bool
  | [], _ => false
  | v :: vs, target => if v = target then true else contains vs target

/-- The first loop of `getBootVersion`: every release flagged current
overwrites `target` with its version. -/
def scanCurrent (releases : List Release) (target : String) : String :=
  releases.foldl (fun t r => if r.Current then r.Version else t) target

/-- The second loop of `getBootVersion`: the versions appended one by one. -/
def collectVersions (releases : List Release) : List String :=
  releases.foldl (fun versions release => versions ++ [release.Version]) []

/-- The Go method `(*BootMetadata).getBootVersion`. -/
def BootMetadata.getBootVersion (b : BootMetadata) (target : String) :
    Except String String :=
  let target := if target = "" then scanCurrent b.Releases target else target
  if target = "" then
    .error "can not determine target version"
  else
    let versions := collectVersions b.Releases
    if !contains versions target then
      .error (sprintf
        "spring-boot version '%s' is not listed in current supported versions: %s\n"
        [target, stringsJoin versions ", "])
    else
      .ok target

/-- The body of `getAction`: the loop over `s.Type.Values`, and the error
returned when the loop ends without a match. -/
def getActionLoop (targetID : String) : List TypeValue → Except String String
  | [] => .error "can not determine type action"
  | t :: ts => if t.ID = targetID then .ok t.Action else getActionLoop targetID ts

/-- The Go method `(*StarterMetadata).getAction`. -/
def StarterMetadata.getAction (s : StarterMetadata) (targetID : String) :
    Except String String :=
  getActionLoop targetID s.Values

/-- The Go method `(*Config).flattenedDependencies`. -/
def Config.flattenedDependencies (c : Config) : List String :=
  c.Dependencies.foldl (fun dependencies item => dependencies ++ stringsSplit item ',') []

/-! ## Effects and the outside world -/

/-- The part of the outside world a run changes. -/
structure World where
  /-- The texts written to standard output, in order. -/
  stdout : List String
  /-- The texts appended to files, in order, each with the path of its file. -/
  files : List (String × String)
  /-- The HTTP GET requests issued, in order: the URL, and whether certificate
  verification was skipped. -/
  requests : List (String × Bool)
  deriving DecidableEq, Repr

/-- The library type `mvnparser.MavenProject`.  The program only reads
`Properties`, a Go map from string to string; the list holds the entries of
the map in the order in which the `range` loop of `run` visits them, an order
the Go runtime leaves unspecified. -/
structure MavenProject where
  Properties : List (String × String)
  deriving DecidableEq, Repr

/-- What the outside world answers during one run. -/
structure Env where
  /-- `Get(url)` on an HTTP client followed by `io.ReadAll` of the response
  body; the first argument is the number of requests issued before this one,
  the last whether certificate verification is skipped. -/
  httpGet : Nat → String → Bool → Except String String
  /-- `json.Unmarshal` of a body into a `BootMetadata`. -/
  jsonBootMetadata : String → Except String BootMetadata
  /-- `json.Unmarshal` of a body into a `StarterMetadata`. -/
  jsonStarterMetadata : String → Except String StarterMetadata
  /-- `xml.Unmarshal` of a body into a `MavenProject`. -/
  xmlMavenProject : String → Except String MavenProject
  /-- `url.QueryEscape`. -/
  queryEscape : String → String
  /-- `os.Getenv("GITHUB_OUTPUT")`. -/
  GITHUB_OUTPUT : String
  /-- `os.OpenFile(path, O_APPEND|O_CREATE|O_WRONLY, 0644)`: the error, if any. -/
  openFile : World → String → Except String Unit
  /-- `WriteString(text)` on standard output (`none`) or on the opened file
  (`some path`): the error, if any. -/
  writeString : World → Option String → String → Except String Unit

/-- Go `url.Values.Encode`: the pairs `key=value`, keys in sorted order, every
key and value escaped, joined by "&".  The argument lists the keys in sorted
order. -/
def urlValuesEncode (env : Env) (values : List (String × List String)) : String :=
  stringsJoin
    ((values.map (fun kv =>
        kv.2.map (fun v => env.queryEscape kv.1 ++ "=" ++ env.queryEscape v))).flatten)
    "&"

/-- Go `fmt.Printf(format, a...)`: the formatted text goes to standard
output; the program ignores the error. -/
def printf (env : Env) (format : String) (a : List String) (w : World) : World :=
  match env.writeString w none (sprintf format a) with
  | .ok _ => { w with stdout := w.stdout ++ [sprintf format a] }
  | .error _ => w

/-- The Go function `fromJson`; `unmarshal` is `json.Unmarshal` into the
target `v`. -/
def fromJson {α : Type} (env : Env) (unmarshal : String → Except String α)
    (api : String) (insecure : Bool) (w : World) : Except String α × World :=
  match env.httpGet w.requests.length api insecure with
  | .error err => (.error err, { w with requests := w.requests ++ [(api, insecure)] })
  | .ok body => (unmarshal body, { w with requests := w.requests ++ [(api, insecure)] })

/-- The Go function `loadMavenProject`. -/
def loadMavenProject (env : Env) (apiURL : String) (c : Config) (w : World) :
    Except String MavenProject × World :=
  let queryParams : List (String × List String) :=
    [("BootVersion", [c.BootVersion]), ("dependencies", c.flattenedDependencies)]
  let apiURL := apiURL ++ "?" ++ urlValuesEncode env queryParams
  match env.httpGet w.requests.length apiURL false with
  | .error err => (.error err, { w with requests := w.requests ++ [(apiURL, false)] })
  | .ok body => (env.xmlMavenProject body, { w with requests := w.requests ++ [(apiURL, false)] })

/-- The Go function `write`. -/
def write (env : Env) (output text : String) (w : World) : Except String Unit × World :=
  if output = outputStdout then
    match env.writeString w none text with
    | .error err => (.error err, w)
    | .ok _ => (.ok (), { w with stdout := w.stdout ++ [text] })
  else if output = outputGithub then
    let path := env.GITHUB_OUTPUT
    if path = "" then
      (.error "environment variable GITHUB_OUTPUT must be set", w)
    else
      match env.openFile w path with
      | .error err =>
        (.error (sprintf "could not open github output file for writing: %w" [err]), w)
      | .ok _ =>
        match env.writeString w (some path) text with
        | .error err => (.error err, w)
        | .ok _ => (.ok (), { w with files := w.files ++ [(path, text)] })
  else
    (.error (sprintf "unsupported output type to new writer: %s" [output]), w)

/-- The Go function `writef`. -/
def writef (env : Env) (output format : String) (a : List String) (w : World) :
    Except String Unit × World :=
  write env output (sprintf format a) w

/-- The Go function `writeln`. -/
def writeln (env : Env) (output text : String) (w : World) : Except String Unit × World :=
  writef env output "%s\n" [text] w

/-- The `range` loop of `run` over `project.Properties`. -/
def writeProperties (env : Env) (output : String) :
    List (String × String) → World → Except String Unit × World
  | [], w => (.ok (), w)
  | (k, v) :: rest, w =>
    if stringsHasPrefix k "spring" then
      match writef env output "%s=%s\n" [k, v] w with
      | (.error err, w1) => (.error err, w1)
      | (.ok _, w1) => writeProperties env output rest w1
    else
      writeProperties env output rest w

/-- The Go function `run`. -/
def run (env : Env) (c : Config) (w : World) : Except String Unit × World :=
  let w := printf env "Fetching Spring Boot Metadata from %s\n" [c.Metadata.Boot] w
  match fromJson env env.jsonBootMetadata c.Metadata.Boot c.Metadata.Insecure w with
  | (.error err, w) => (.error err, w)
  | (.ok boot, w) =>
    match boot.getBootVersion c.BootVersion with
    | .error err => (.error err, w)
    | .ok version =>
      let c := { c with BootVersion := version }
      let w := printf env "Fetching Starter Metadata from %s\n" [c.Metadata.Starter] w
      match fromJson env env.jsonStarterMetadata c.Metadata.Starter c.Metadata.Insecure w with
      | (.error err, w) => (.error err, w)
      | (.ok starter, w) =>
        match starter.getAction c.TypeID with
        | .error err => (.error err, w)
        | .ok action =>
          match loadMavenProject env (c.Metadata.Starter ++ action) c w with
          | (.error err, w) => (.error err, w)
          | (.ok project, w) =>
            match writeln env c.Output ("spring-boot=" ++ c.BootVersion) w with
            | (.error err, w) => (.error err, w)
            | (.ok _, w) => writeProperties env c.Output project.Properties w

/-! ## A concrete run -/

/-- The catalog of the end-to-end example: 3.1.2 (not current) and 3.2.0
(current). -/
def exampleCatalog : BootMetadata :=
  ⟨[⟨"3.1.2", false⟩, ⟨"3.2.0", true⟩]⟩

/-- An outside world for the end-to-end example: the Boot catalog above, a
starter document resolving "maven-build" to "/starter.zip", a project with
the three properties of the example, and writes that succeed. -/
def exampleEnv : Env where
  httpGet := fun n _ _ => .ok (if n = 0 then "boot" else if n = 1 then "starter" else "pom")
  jsonBootMetadata := fun _ => .ok exampleCatalog
  jsonStarterMetadata := fun _ => .ok ⟨[⟨"gradle-build", "/build.gradle"⟩, ⟨"maven-build", "/starter.zip"⟩]⟩
  xmlMavenProject := fun _ =>
    .ok ⟨[("spring-boot.version", "3.2.0"), ("other.prop", "x"),
      ("spring-cloud.version", "2023.0.0")]⟩
  queryEscape := fun s => s
  GITHUB_OUTPUT := ""
  openFile := fun _ _ => .ok ()
  writeString := fun _ _ _ => .ok ()

/-- The same outside world with standard output closed: every write to it
fails. -/
def closedStdoutEnv : Env :=
  { exampleEnv with
    writeString := fun _ target _ =>
      match target with
      | none => .error "write /dev/stdout: file already closed"
      | some _ => .ok () }

/-- The default configuration of `main`: empty `-b`, type "maven-build",
output "stdout". -/
def exampleConfig : Config :=
  { Metadata :=
      { Starter := "https://start.spring.io"
        Boot := "https://api.spring.io/projects/spring-boot/releases"
        Insecure := false }
    BootVersion := ""
    TypeID := "maven-build"
    Dependencies := []
    Output := outputStdout }

/-- A world in which nothing has happened yet. -/
def emptyWorld : World := ⟨[], [], []⟩

/-! ## Facts about the library functions -/

theorem contains_iff (source : List String) (target : String) :
    contains source target = true ↔ target ∈ source := by
  induction source with
  | nil => simp [contains]
  | cons v vs ih =>
    by_cases h : v = target
    · simp [contains, h]
    · have h2 : ¬ target = v := fun e => h e.symm
      simp [contains, h, h2, ih]

theorem collectVersions_from (releases : List Release) (acc : List String) :
    releases.foldl (fun versions release => versions ++ [release.Version]) acc
      = acc ++ releases.map (fun r => r.Version) := by
  induction releases generalizing acc with
  | nil => simp
  | cons r rs ih => simp [List.foldl_cons, ih]

theorem collectVersions_eq_map (releases : List Release) :
    collectVersions releases = releases.map (fun r => r.Version) := by
  simp [collectVersions, collectVersions_from]

theorem scanCurrent_none (releases : List Release) (target : String)
    (h : ∀ x ∈ releases, x.Current = false) : scanCurrent releases target = target := by
  induction releases generalizing target with
  | nil => rfl
  | cons r rs ih =>
    have hr : r.Current = false := h r (List.mem_cons_self _ _)
    have hrs : ∀ x ∈ rs, x.Current = false := fun x hx => h x (List.mem_cons_of_mem _ hx)
    simpa [scanCurrent, List.foldl_cons, hr] using ih target hrs

theorem scanCurrent_last (pre post : List Release) (r : Release) (target : String)
    (hr : r.Current = true) (hpost : ∀ x ∈ post, x.Current = false) :
    scanCurrent (pre ++ r :: post) target = r.Version := by
  have h := scanCurrent_none post r.Version hpost
  simpa [scanCurrent, List.foldl_append, List.foldl_cons, hr] using h

theorem getBootVersion_of_ne (b : BootMetadata) (target : String) (hne : target ≠ "") :
    b.getBootVersion target =
      if target ∈ b.Releases.map (fun r => r.Version) then .ok target
      else .error (sprintf
        "spring-boot version '%s' is not listed in current supported versions: %s\n"
        [target, stringsJoin (b.Releases.map (fun r => r.Version)) ", "]) := by
  by_cases hm : target ∈ b.Releases.map (fun r => r.Version)
  · have hc : contains (List.map (fun r => r.Version) b.Releases) target = true :=
      (contains_iff _ _).2 hm
    simp [BootMetadata.getBootVersion, hne, collectVersions_eq_map, hc, hm]
  · have hc : contains (List.map (fun r => r.Version) b.Releases) target = false := by
      cases hcc : contains (List.map (fun r => r.Version) b.Releases) target with
      | false => rfl
      | true => exact absurd ((contains_iff _ _).1 hcc) hm
    simp only [BootMetadata.getBootVersion, if_neg hne, collectVersions_eq_map, hc, if_neg hm]
    rfl

theorem getBootVersion_empty (b : BootMetadata) :
    b.getBootVersion "" =
      if scanCurrent b.Releases "" = "" then .error "can not determine target version"
      else b.getBootVersion (scanCurrent b.Releases "") := by
  by_cases h : scanCurrent b.Releases "" = ""
  · simp [BootMetadata.getBootVersion, h]
  · simp [BootMetadata.getBootVersion, h]

theorem getAction_go_first (targetID : String) (pre post : List TypeValue) (t : TypeValue)
    (ht : t.ID = targetID) (hpre : ∀ x ∈ pre, x.ID ≠ targetID) :
    getActionLoop targetID (pre ++ t :: post) = .ok t.Action := by
  induction pre with
  | nil => simp [getActionLoop, ht]
  | cons x xs ih =>
    have hx : x.ID ≠ targetID := hpre x (List.mem_cons_self _ _)
    have hxs : ∀ y ∈ xs, y.ID ≠ targetID := fun y hy => hpre y (List.mem_cons_of_mem _ hy)
    simpa [getActionLoop, hx] using ih hxs

theorem getAction_go_error_iff (targetID : String) (values : List TypeValue) (e : String) :
    getActionLoop targetID values = .error e ↔
      e = "can not determine type action" ∧ ∀ t ∈ values, t.ID ≠ targetID := by
  induction values with
  | nil =>
    simp only [getActionLoop, List.not_mem_nil, false_implies, implies_true,
      and_true]
    constructor
    · intro h; injection h with h; exact h.symm
    · intro h; rw [h]
  | cons x xs ih =>
    by_cases hx : x.ID = targetID
    · simp [getActionLoop, hx]
    · simp [getActionLoop, hx, ih]

/-! ## The Boot-version resolver -/

/-- C1, as stated, fails: in the catalog whose only release is flagged current
and has the empty version, exactly one release is flagged current, yet
`getBootVersion ""` does not return that release's version; it fails with
"can not determine target version". -/
theorem empty_version_current_not_resolved :
    (BootMetadata.mk [⟨"", true⟩]).Releases.filter (fun r => r.Current) = [⟨"", true⟩] ∧
    (BootMetadata.mk [⟨"", true⟩]).getBootVersion "" ≠ .ok "" ∧
    (BootMetadata.mk [⟨"", true⟩]).getBootVersion ""
      = .error "can not determine target version" := by
  decide

/-- C1, amended: when exactly one release of the catalog is flagged current
(the release `r`, with no flagged release before or after it) and its version
is not the empty string, `getBootVersion ""` succeeds and returns that
release's version. -/
theorem getBootVersion_single_current (b : BootMetadata) (pre post : List Release)
    (r : Release) (hcat : b.Releases = pre ++ r :: post) (hr : r.Current = true)
    (hpre : ∀ x ∈ pre, x.Current = false) (hpost : ∀ x ∈ post, x.Current = false)
    (hv : r.Version ≠ "") :
    b.Releases.filter (fun x => x.Current) = [r] ∧
    b.getBootVersion "" = .ok r.Version := by
  constructor
  · have h1 : pre.filter (fun x => x.Current) = [] :=
      List.filter_eq_nil_iff.2 (fun x hx => by simp [hpre x hx])
    have h2 : post.filter (fun x => x.Current) = [] :=
      List.filter_eq_nil_iff.2 (fun x hx => by simp [hpost x hx])
    simp [hcat, List.filter_append, List.filter_cons, hr, h1, h2]
  · have hs : scanCurrent b.Releases "" = r.Version := by
      rw [hcat]; exact scanCurrent_last pre post r "" hr hpost
    have hm : r.Version ∈ b.Releases.map (fun x => x.Version) := by
      rw [hcat]; simp
    rw [getBootVersion_empty, hs, if_neg hv, getBootVersion_of_ne b _ hv, if_pos hm]

theorem getBootVersion_single_current_witness :
    (BootMetadata.mk [⟨"3.1.2", false⟩, ⟨"3.2.0", true⟩, ⟨"3.3.0", false⟩]).Releases.filter
        (fun x => x.Current) = [⟨"3.2.0", true⟩] ∧
    (BootMetadata.mk [⟨"3.1.2", false⟩, ⟨"3.2.0", true⟩, ⟨"3.3.0", false⟩]).getBootVersion ""
      = .ok "3.2.0" :=
  getBootVersion_single_current
    (BootMetadata.mk [⟨"3.1.2", false⟩, ⟨"3.2.0", true⟩, ⟨"3.3.0", false⟩])
    [⟨"3.1.2", false⟩] [⟨"3.3.0", false⟩] ⟨"3.2.0", true⟩ rfl rfl (by decide) (by decide)
    (by decide)

/-- C2, as stated, fails: the empty requested version does not appear among
the versions of the catalog whose single release "3.2.0" is flagged current,
yet `getBootVersion` succeeds (with "3.2.0") instead of failing. -/
theorem empty_request_absent_yet_resolved :
    "" ∉ (BootMetadata.mk [⟨"3.2.0", true⟩]).Releases.map (fun r => r.Version) ∧
    (BootMetadata.mk [⟨"3.2.0", true⟩]).getBootVersion "" = .ok "3.2.0" := by
  decide

/-- C2, amended: for every catalog and every non-empty requested version that
does not appear among the catalog's release versions, `getBootVersion` fails,
and the error text is "spring-boot version '<requested>' is not listed in
current supported versions: <versions>" followed by a newline, where
<versions> is every catalog version, in catalog order, joined by ", ". -/
theorem getBootVersion_absent (b : BootMetadata) (target : String) (hne : target ≠ "")
    (habs : target ∉ b.Releases.map (fun r => r.Version)) :
    b.getBootVersion target
      = .error ("spring-boot version '" ++ (target ++
          ("' is not listed in current supported versions: " ++
            (stringsJoin (b.Releases.map (fun r => r.Version)) ", " ++ "\n")))) ∧
    ∃ before after : String, b.getBootVersion target
      = .error (before ++ (stringsJoin (b.Releases.map (fun r => r.Version)) ", " ++ after)) := by
  have h : b.getBootVersion target
      = .error ("spring-boot version '" ++ (target ++
          ("' is not listed in current supported versions: " ++
            (stringsJoin (b.Releases.map (fun r => r.Version)) ", " ++ "\n")))) := by
    rw [getBootVersion_of_ne b target hne, if_neg habs]
    rfl
  refine ⟨h, "spring-boot version '" ++ (target ++
      "' is not listed in current supported versions: "), "\n", ?_⟩
  rw [h]
  congr 1
  apply String.ext
  simp [String.data_append]

theorem getBootVersion_absent_witness :
    (BootMetadata.mk [⟨"3.1.2", false⟩, ⟨"3.2.0", true⟩]).getBootVersion "9.9.9"
      = .error ("spring-boot version '" ++ ("9.9.9" ++
          ("' is not listed in current supported versions: " ++
            (stringsJoin ((BootMetadata.mk [⟨"3.1.2", false⟩, ⟨"3.2.0", true⟩]).Releases.map
              (fun r => r.Version)) ", " ++ "\n")))) ∧
    ∃ before after : String,
      (BootMetadata.mk [⟨"3.1.2", false⟩, ⟨"3.2.0", true⟩]).getBootVersion "9.9.9"
        = .error (before ++
            (stringsJoin ((BootMetadata.mk [⟨"3.1.2", false⟩, ⟨"3.2.0", true⟩]).Releases.map
              (fun r => r.Version)) ", " ++ after)) :=
  getBootVersion_absent (BootMetadata.mk [⟨"3.1.2", false⟩, ⟨"3.2.0", true⟩]) "9.9.9"
    (by decide) (by decide)

/-- C3, as stated, fails: in a catalog without a release flagged current,
`getBootVersion ""` does fail, but the error it returns is not the text
"cannot determine target version". -/
theorem no_current_error_text :
    (∀ x ∈ (BootMetadata.mk [⟨"3.1.2", false⟩]).Releases, x.Current = false) ∧
    (BootMetadata.mk [⟨"3.1.2", false⟩]).getBootVersion ""
      ≠ .error "cannot determine target version" ∧
    (BootMetadata.mk [⟨"3.1.2", false⟩]).getBootVersion ""
      = .error "can not determine target version" := by
  decide

/-- C3, amended: for every catalog in which no release is flagged current,
`getBootVersion ""` fails with the error "can not determine target version"
(and returns no version). -/
theorem getBootVersion_no_current (b : BootMetadata)
    (h : ∀ x ∈ b.Releases, x.Current = false) :
    b.getBootVersion "" = .error "can not determine target version" := by
  rw [getBootVersion_empty, scanCurrent_none b.Releases "" h]
  simp

theorem getBootVersion_no_current_witness :
    (BootMetadata.mk [⟨"3.1.2", false⟩, ⟨"3.2.0", false⟩]).getBootVersion ""
      = .error "can not determine target version" :=
  getBootVersion_no_current (BootMetadata.mk [⟨"3.1.2", false⟩, ⟨"3.2.0", false⟩])
    (by decide)

/-- C4: for every catalog and every non-empty requested version that equals
the version of some release of the catalog, `getBootVersion` succeeds and
returns exactly the requested string, whatever the current flags are. -/
theorem getBootVersion_present (b : BootMetadata) (target : String) (hne : target ≠ "")
    (r : Release) (hr : r ∈ b.Releases) (hv : r.Version = target) :
    b.getBootVersion target = .ok target := by
  have hm : target ∈ b.Releases.map (fun x => x.Version) :=
    List.mem_map.2 ⟨r, hr, hv⟩
  rw [getBootVersion_of_ne b target hne, if_pos hm]

theorem getBootVersion_present_witness :
    (BootMetadata.mk [⟨"3.1.2", false⟩, ⟨"3.2.0", true⟩]).getBootVersion "3.1.2"
      = .ok "3.1.2" :=
  getBootVersion_present (BootMetadata.mk [⟨"3.1.2", false⟩, ⟨"3.2.0", true⟩]) "3.1.2"
    (by decide) ⟨"3.1.2", false⟩ (by decide) rfl

/-- C9: for every catalog with at least one release flagged current, where `r`
is the last release in catalog order that is flagged current,
`getBootVersion ""` resolves the target to `r.Version` (the last flag wins),
every successful call returns `r.Version`, and the call succeeds whenever
`r.Version` is not the empty string. -/
theorem getBootVersion_last_current (b : BootMetadata) (pre post : List Release)
    (r : Release) (hcat : b.Releases = pre ++ r :: post) (hr : r.Current = true)
    (hpost : ∀ x ∈ post, x.Current = false) :
    scanCurrent b.Releases "" = r.Version ∧
    (∀ v, b.getBootVersion "" = .ok v → v = r.Version) ∧
    (r.Version ≠ "" → b.getBootVersion "" = .ok r.Version) := by
  have hs : scanCurrent b.Releases "" = r.Version := by
    rw [hcat]; exact scanCurrent_last pre post r "" hr hpost
  have hm : r.Version ∈ b.Releases.map (fun x => x.Version) := by
    rw [hcat]; simp
  have hok : r.Version ≠ "" → b.getBootVersion "" = .ok r.Version := by
    intro hv
    rw [getBootVersion_empty, hs, if_neg hv, getBootVersion_of_ne b _ hv, if_pos hm]
  refine ⟨hs, ?_, hok⟩
  intro v hv
  by_cases he : r.Version = ""
  · rw [getBootVersion_empty, hs, if_pos he] at hv
    cases hv
  · rw [hok he] at hv
    injection hv with hv
    exact hv.symm

theorem getBootVersion_last_current_witness :
    scanCurrent (BootMetadata.mk [⟨"3.1.2", true⟩, ⟨"3.2.0", true⟩, ⟨"3.3.0", false⟩]).Releases ""
      = "3.2.0" ∧
    (∀ v, (BootMetadata.mk [⟨"3.1.2", true⟩, ⟨"3.2.0", true⟩, ⟨"3.3.0", false⟩]).getBootVersion ""
      = .ok v → v = "3.2.0") ∧
    ("3.2.0" ≠ "" →
      (BootMetadata.mk [⟨"3.1.2", true⟩, ⟨"3.2.0", true⟩, ⟨"3.3.0", false⟩]).getBootVersion ""
        = .ok "3.2.0") :=
  getBootVersion_last_current
    (BootMetadata.mk [⟨"3.1.2", true⟩, ⟨"3.2.0", true⟩, ⟨"3.3.0", false⟩])
    [⟨"3.1.2", true⟩] [⟨"3.3.0", false⟩] ⟨"3.2.0", true⟩ rfl rfl (by decide)

/-! ## The starter-action resolver -/

/-- C5, as stated, fails: no entry of the empty value list has the id
"maven-build", yet `getAction` does not fail with the text "cannot determine
type action"; its error is "can not determine type action". -/
theorem no_action_error_text :
    (∀ t ∈ (StarterMetadata.mk []).Values, t.ID ≠ "maven-build") ∧
    (StarterMetadata.mk []).getAction "maven-build" ≠ .error "cannot determine type action" ∧
    (StarterMetadata.mk []).getAction "maven-build" = .error "can not determine type action" := by
  decide

/-- C5, amended: for every starter metadata document and every type
identifier, `getAction` returns the action of the first entry of the value
list whose id equals the identifier; it fails if and only if no entry has that
id, and its only error is "can not determine type action". -/
theorem getAction_spec (s : StarterMetadata) (targetID : String) :
    (∀ (pre post : List TypeValue) (t : TypeValue), s.Values = pre ++ t :: post →
      t.ID = targetID → (∀ x ∈ pre, x.ID ≠ targetID) →
      s.getAction targetID = .ok t.Action) ∧
    (s.getAction targetID = .error "can not determine type action" ↔
      ∀ t ∈ s.Values, t.ID ≠ targetID) ∧
    (∀ e, s.getAction targetID = .error e → e = "can not determine type action") := by
  refine ⟨?_, ?_, ?_⟩
  · intro pre post t hcat ht hpre
    rw [StarterMetadata.getAction, hcat]
    exact getAction_go_first targetID pre post t ht hpre
  · rw [StarterMetadata.getAction, getAction_go_error_iff]
    simp
  · intro e he
    rw [StarterMetadata.getAction, getAction_go_error_iff] at he
    exact he.1

/-! ## The dependency flattener -/

theorem flatten_from (tokens : List String) (acc : List String) :
    tokens.foldl (fun dependencies item => dependencies ++ stringsSplit item ',') acc
      = acc ++ (tokens.map (fun item => stringsSplit item ',')).flatten := by
  induction tokens generalizing acc with
  | nil => simp
  | cons t ts ih => simp [List.foldl_cons, ih]

theorem splitChars_ne_nil (sep : Char) (l : List Char) : splitChars sep l ≠ [] := by
  cases l with
  | nil => simp [splitChars]
  | cons c cs =>
    by_cases h : c = sep
    · simp [splitChars, h]
    · cases hs : splitChars sep cs <;> simp [splitChars, h, hs]

theorem stringsSplit_ne_nil (s : String) (sep : Char) : stringsSplit s sep ≠ [] := by
  simp [stringsSplit, splitChars_ne_nil]

theorem stringsJoin_cons (x : String) (ys : List String) (sep : String) (h : ys ≠ []) :
    stringsJoin (x :: ys) sep = x ++ sep ++ stringsJoin ys sep := by
  cases ys with
  | nil => exact absurd rfl h
  | cons y rest => rfl

theorem stringsJoin_append (xs ys : List String) (sep : String) (hx : xs ≠ [])
    (hy : ys ≠ []) :
    stringsJoin (xs ++ ys) sep = stringsJoin xs sep ++ sep ++ stringsJoin ys sep := by
  induction xs with
  | nil => exact absurd rfl hx
  | cons x xs ih =>
    cases xs with
    | nil => simpa using stringsJoin_cons x ys sep hy
    | cons x2 rest =>
      have h1 : (x2 :: rest) ++ ys ≠ [] := by simp
      have h2 := ih (by simp)
      rw [List.cons_append, stringsJoin_cons x _ sep h1, h2,
        stringsJoin_cons x (x2 :: rest) sep (by simp)]
      simp [String.append_assoc]

theorem stringsJoin_splitChars (sep : Char) (l : List Char) :
    stringsJoin ((splitChars sep l).map String.mk) (String.mk [sep]) = String.mk l := by
  induction l with
  | nil => rfl
  | cons c cs ih =>
    by_cases h : c = sep
    · have hne : (splitChars sep cs).map String.mk ≠ [] := by
        simp [splitChars_ne_nil]
      simp only [splitChars, if_pos h, List.map_cons]
      rw [stringsJoin_cons _ _ _ hne, ih, h]
      apply String.ext
      simp [String.data_append]
    · cases hs : splitChars sep cs with
      | nil => exact absurd hs (splitChars_ne_nil sep cs)
      | cons p ps =>
        rw [hs] at ih
        simp only [splitChars, if_neg h, hs, List.map_cons]
        cases ps with
        | nil =>
          simp only [List.map_nil, stringsJoin] at ih ⊢
          have hp : p = cs := by injection ih
          rw [hp]
        | cons q qs =>
          simp only [List.map_cons, stringsJoin] at ih ⊢
          have hd := congrArg String.data ih
          apply String.ext
          simp only [String.data_append] at hd ⊢
          simp only [List.cons_append, List.append_assoc] at hd ⊢
          rw [hd]

theorem stringsJoin_stringsSplit (s : String) :
    stringsJoin (stringsSplit s ',') "," = s :=
  stringsJoin_splitChars ',' s.data

theorem stringsJoin_flatten_split (tokens : List String) :
    stringsJoin (tokens.map (fun item => stringsSplit item ',')).flatten ","
      = stringsJoin tokens "," := by
  induction tokens with
  | nil => rfl
  | cons t ts ih =>
    cases ts with
    | nil => simpa [stringsJoin] using stringsJoin_stringsSplit t
    | cons t2 rest =>
      have hne : (List.map (fun item => stringsSplit item ',') (t2 :: rest)).flatten ≠ [] := by
        simp only [List.map_cons, List.flatten_cons]
        intro h
        exact stringsSplit_ne_nil t2 ',' (List.append_eq_nil.1 h).1
      rw [List.map_cons, List.flatten_cons,
        stringsJoin_append _ _ _ (stringsSplit_ne_nil t ',') hne, ih,
        stringsJoin_stringsSplit]
      rfl

/-- C6: for every list of raw dependency tokens, `flattenedDependencies`
returns the concatenation, in the original token order, of the pieces obtained
by splitting each token on ","; `["a,b", "c"]` gives `["a", "b", "c"]`,
`["a"]` gives `["a"]`, and the empty list gives the empty sequence. -/
theorem flattenedDependencies_spec (c : Config) :
    c.flattenedDependencies
      = (c.Dependencies.map (fun item => stringsSplit item ',')).flatten ∧
    ({ c with Dependencies := ["a,b", "c"] } : Config).flattenedDependencies = ["a", "b", "c"] ∧
    ({ c with Dependencies := ["a"] } : Config).flattenedDependencies = ["a"] ∧
    ({ c with Dependencies := [] } : Config).flattenedDependencies = [] := by
  refine ⟨?_, ?_, ?_, ?_⟩
  · simp [Config.flattenedDependencies, flatten_from]
  · show List.foldl _ [] ["a,b", "c"] = _
    decide
  · show List.foldl _ [] ["a"] = _
    decide
  · rfl

/-- C10: for every list of raw dependency tokens, joining the result of
`flattenedDependencies` with "," gives the same string as joining the raw
tokens with ",": no character is dropped, added or reordered; the empty pieces
of "a,,b" and of an empty token are kept. -/
theorem flattenedDependencies_join (c : Config) :
    stringsJoin c.flattenedDependencies "," = stringsJoin c.Dependencies "," ∧
    ({ c with Dependencies := ["a,,b", ""] } : Config).flattenedDependencies
      = ["a", "", "b", ""] := by
  constructor
  · simp only [Config.flattenedDependencies, flatten_from, List.nil_append]
    exact stringsJoin_flatten_split c.Dependencies
  · show List.foldl _ [] ["a,,b", ""] = _
    decide

/-! ## The output writer and the orchestrator -/

theorem sprintf_line (k v : String) : sprintf "%s=%s\n" [k, v] = k ++ "=" ++ v ++ "\n" := by
  have h : sprintf "%s=%s\n" [k, v] = k ++ ("=" ++ (v ++ "\n")) := rfl
  rw [h]
  simp [String.append_assoc]

theorem sprintf_ln (text : String) : sprintf "%s\n" [text] = text ++ "\n" := rfl

theorem sprintf_fetching_boot (url : String) :
    sprintf "Fetching Spring Boot Metadata from %s\n" [url]
      = "Fetching Spring Boot Metadata from " ++ url ++ "\n" := by
  have h : sprintf "Fetching Spring Boot Metadata from %s\n" [url]
      = "Fetching Spring Boot Metadata from " ++ (url ++ "\n") := rfl
  rw [h, String.append_assoc]

theorem sprintf_fetching_starter (url : String) :
    sprintf "Fetching Starter Metadata from %s\n" [url]
      = "Fetching Starter Metadata from " ++ url ++ "\n" := by
  have h : sprintf "Fetching Starter Metadata from %s\n" [url]
      = "Fetching Starter Metadata from " ++ (url ++ "\n") := rfl
  rw [h, String.append_assoc]

theorem printf_of_ok (env : Env) (format : String) (a : List String) (w : World)
    (h : env.writeString w none (sprintf format a) = .ok ()) :
    printf env format a w = { w with stdout := w.stdout ++ [sprintf format a] } := by
  simp [printf, h]

theorem write_stdout_of_ok (env : Env) (text : String) (w : World)
    (h : env.writeString w none text = .ok ()) :
    write env outputStdout text w = (.ok (), { w with stdout := w.stdout ++ [text] }) := by
  simp [write, h]

theorem writeProperties_stdout (env : Env) (props : List (String × String)) (w : World)
    (hwrite : ∀ (w1 : World) (text : String), env.writeString w1 none text = .ok ()) :
    writeProperties env outputStdout props w
      = (.ok (), { w with stdout := (w.stdout ++
          (props.filter (fun kv => stringsHasPrefix kv.1 "spring")).map
            (fun kv => kv.1 ++ "=" ++ kv.2 ++ "\n")) }) := by
  induction props generalizing w with
  | nil => simp [writeProperties]
  | cons kv rest ih =>
    obtain ⟨k, v⟩ := kv
    by_cases hp : stringsHasPrefix k "spring" = true
    · simp [writeProperties, hp, writef, write_stdout_of_ok env _ _ (hwrite _ _), ih,
        sprintf_line]
    · simp [writeProperties, hp, ih]


theorem write_error_world (env : Env) (output text : String) (w w1 : World) (e : String)
    (h : write env output text w = (.error e, w1)) : w1 = w := by
  unfold write at h
  split at h
  · split at h <;> simp_all
  · split at h
    · dsimp only at h
      split at h
      · simp_all
      · split at h
        · simp_all
        · split at h <;> simp_all
    · simp_all

theorem printf_requests (env : Env) (format : String) (a : List String) (w : World) :
    (printf env format a w).requests = w.requests := by
  unfold printf
  split <;> rfl

theorem printf_files (env : Env) (format : String) (a : List String) (w : World) :
    (printf env format a w).files = w.files := by
  unfold printf
  split <;> rfl

theorem printf_stdout (env : Env) (format : String) (a : List String) (w : World) :
    (printf env format a w).stdout = w.stdout ∨
    (printf env format a w).stdout = w.stdout ++ [sprintf format a] := by
  unfold printf
  split
  · exact Or.inr rfl
  · exact Or.inl rfl

theorem writeProperties_append (env : Env) (output : String)
    (pre rest : List (String × String)) (w : World) :
    writeProperties env output (pre ++ rest) w =
      match writeProperties env output pre w with
      | (.error err, w1) => (.error err, w1)
      | (.ok _, w1) => writeProperties env output rest w1 := by
  induction pre generalizing w with
  | nil => simp [writeProperties]
  | cons kv pre ih =>
    obtain ⟨k, v⟩ := kv
    by_cases hp : stringsHasPrefix k "spring" = true
    · simp only [List.cons_append, writeProperties, hp, if_true]
      cases hw : writef env output "%s=%s\n" [k, v] w with
      | mk r w1 =>
        cases r with
        | error e => simp
        | ok u => simpa using ih w1
    · simp only [List.cons_append, writeProperties, hp]
      simpa using ih w

theorem filter_spring_example (props : List (String × String))
    (h : props.Perm [("spring-boot.version", "3.2.0"), ("spring-cloud.version", "2023.0.0"),
      ("other.prop", "x")]) :
    ((props.filter (fun kv => stringsHasPrefix kv.1 "spring")).map
        (fun kv => kv.1 ++ "=" ++ kv.2 ++ "\n")).Perm
      ["spring-boot.version=3.2.0\n", "spring-cloud.version=2023.0.0\n"] := by
  have h1 := (h.filter (fun kv => stringsHasPrefix kv.1 "spring")).map
    (fun kv => kv.1 ++ "=" ++ kv.2 ++ "\n")
  have h2 : (([("spring-boot.version", "3.2.0"), ("spring-cloud.version", "2023.0.0"),
      ("other.prop", "x")] : List (String × String)).filter
        (fun kv => stringsHasPrefix kv.1 "spring")).map (fun kv => kv.1 ++ "=" ++ kv.2 ++ "\n")
      = ["spring-boot.version=3.2.0\n", "spring-cloud.version=2023.0.0\n"] := by
    decide
  rw [h2] at h1
  exact h1

/-- C7, amended: for every run with output selector "stdout" in which all
fetches and resolutions succeed and every write to standard output succeeds,
standard output receives the two progress messages and then the result lines:
first "spring-boot=<resolved version>" with a newline, then exactly one line
"<key>=<value>" with a newline for each project property whose key starts with
"spring", in the order the properties are visited, and no line for any other
property.  For the catalog [3.1.2 not current, 3.2.0 current], empty `-b` and
the properties spring-boot.version, spring-cloud.version and other.prop,
visited in any order, the result lines are spring-boot=3.2.0 followed by the
two spring-prefixed properties, with other.prop omitted. -/
theorem run_result_lines (env : Env) (c : Config) (w : World)
    (body1 body2 body3 : String) (boot : BootMetadata) (version : String)
    (starter : StarterMetadata) (action : String) (project : MavenProject)
    (hout : c.Output = "stdout")
    (hget1 : env.httpGet w.requests.length c.Metadata.Boot c.Metadata.Insecure = .ok body1)
    (hboot : env.jsonBootMetadata body1 = .ok boot)
    (hver : boot.getBootVersion c.BootVersion = .ok version)
    (hget2 : env.httpGet (w.requests.length + 1) c.Metadata.Starter c.Metadata.Insecure
      = .ok body2)
    (hstarter : env.jsonStarterMetadata body2 = .ok starter)
    (hact : starter.getAction c.TypeID = .ok action)
    (hget3 : env.httpGet (w.requests.length + 2)
      (c.Metadata.Starter ++ action ++ "?" ++ urlValuesEncode env
        [("BootVersion", [version]), ("dependencies", c.flattenedDependencies)]) false
      = .ok body3)
    (hproj : env.xmlMavenProject body3 = .ok project)
    (hwrite : ∀ (w1 : World) (text : String), env.writeString w1 none text = .ok ()) :
    run env c w = (.ok (),
      { stdout := (w.stdout ++
          ["Fetching Spring Boot Metadata from " ++ c.Metadata.Boot ++ "\n",
            "Fetching Starter Metadata from " ++ c.Metadata.Starter ++ "\n"] ++
          ("spring-boot=" ++ version ++ "\n") ::
            (project.Properties.filter (fun kv => stringsHasPrefix kv.1 "spring")).map
              (fun kv => kv.1 ++ "=" ++ kv.2 ++ "\n"))
        files := w.files
        requests := (w.requests ++
          [(c.Metadata.Boot, c.Metadata.Insecure), (c.Metadata.Starter, c.Metadata.Insecure),
            (c.Metadata.Starter ++ action ++ "?" ++ urlValuesEncode env
              [("BootVersion", [version]), ("dependencies", c.flattenedDependencies)],
              false)]) }) ∧
    (boot = exampleCatalog → c.BootVersion = "" →
      project.Properties.Perm [("spring-boot.version", "3.2.0"),
        ("spring-cloud.version", "2023.0.0"), ("other.prop", "x")] →
      ∃ lines : List String,
        (run env c w).2.stdout = w.stdout ++
          ["Fetching Spring Boot Metadata from " ++ c.Metadata.Boot ++ "\n",
            "Fetching Starter Metadata from " ++ c.Metadata.Starter ++ "\n"] ++
          "spring-boot=3.2.0\n" :: lines ∧
        lines.Perm ["spring-boot.version=3.2.0\n", "spring-cloud.version=2023.0.0\n"]) := by
  have hrun : run env c w = (.ok (),
      { stdout := (w.stdout ++
          ["Fetching Spring Boot Metadata from " ++ c.Metadata.Boot ++ "\n",
            "Fetching Starter Metadata from " ++ c.Metadata.Starter ++ "\n"] ++
          ("spring-boot=" ++ version ++ "\n") ::
            (project.Properties.filter (fun kv => stringsHasPrefix kv.1 "spring")).map
              (fun kv => kv.1 ++ "=" ++ kv.2 ++ "\n"))
        files := w.files
        requests := (w.requests ++
          [(c.Metadata.Boot, c.Metadata.Insecure), (c.Metadata.Starter, c.Metadata.Insecure),
            (c.Metadata.Starter ++ action ++ "?" ++ urlValuesEncode env
              [("BootVersion", [version]), ("dependencies", c.flattenedDependencies)],
              false)]) }) := by
    have hout2 : c.Output = outputStdout := hout
    have hget3b : env.httpGet (w.requests.length + 1 + 1)
        (c.Metadata.Starter ++ action ++ "?" ++ urlValuesEncode env
          [("BootVersion", [version]), ("dependencies", c.flattenedDependencies)]) false
        = .ok body3 := hget3
    simp only [Config.flattenedDependencies] at hget3b
    simp only [run, printf_of_ok env _ _ _ (hwrite _ _), fromJson, hget1, hboot, hver,
      List.length_append, List.length_singleton, List.length_cons, List.length_nil,
      hget2, hstarter, hact, loadMavenProject, Config.flattenedDependencies, hget3b, hproj,
      writeln, writef, hout2,
      write_stdout_of_ok env _ _ (hwrite _ _), writeProperties_stdout env _ _ hwrite,
      sprintf_fetching_boot, sprintf_fetching_starter, sprintf_ln]
    simp
  refine ⟨hrun, ?_⟩
  intro hcat hb hperm
  refine ⟨_, ?_, filter_spring_example project.Properties hperm⟩
  have hv : version = "3.2.0" := by
    rw [hcat, hb] at hver
    have h2 : exampleCatalog.getBootVersion "" = .ok "3.2.0" := by decide
    rw [h2] at hver
    injection hver with hver
    exact hver.symm
  rw [hrun, hv]
  rfl

theorem run_result_lines_witness :
    run exampleEnv exampleConfig emptyWorld = (.ok (),
      { stdout := (emptyWorld.stdout ++
          ["Fetching Spring Boot Metadata from " ++ exampleConfig.Metadata.Boot ++ "\n",
            "Fetching Starter Metadata from " ++ exampleConfig.Metadata.Starter ++ "\n"] ++
          ("spring-boot=" ++ "3.2.0" ++ "\n") ::
            ([("spring-boot.version", "3.2.0"), ("other.prop", "x"),
              ("spring-cloud.version", "2023.0.0")].filter
                (fun kv => stringsHasPrefix kv.1 "spring")).map
              (fun kv => kv.1 ++ "=" ++ kv.2 ++ "\n"))
        files := emptyWorld.files
        requests := (emptyWorld.requests ++
          [(exampleConfig.Metadata.Boot, exampleConfig.Metadata.Insecure),
            (exampleConfig.Metadata.Starter, exampleConfig.Metadata.Insecure),
            (exampleConfig.Metadata.Starter ++ "/starter.zip" ++ "?" ++
              urlValuesEncode exampleEnv
                [("BootVersion", ["3.2.0"]),
                  ("dependencies", exampleConfig.flattenedDependencies)],
              false)]) }) ∧
    run exampleEnv exampleConfig emptyWorld = (.ok (),
      { stdout :=
          ["Fetching Spring Boot Metadata from https://api.spring.io/projects/spring-boot/releases\n",
            "Fetching Starter Metadata from https://start.spring.io\n",
            "spring-boot=3.2.0\n",
            "spring-boot.version=3.2.0\n",
            "spring-cloud.version=2023.0.0\n"]
        files := []
        requests :=
          [("https://api.spring.io/projects/spring-boot/releases", false),
            ("https://start.spring.io", false),
            ("https://start.spring.io/starter.zip?BootVersion=3.2.0", false)] }) :=
  ⟨(run_result_lines exampleEnv exampleConfig emptyWorld "boot" "starter" "pom"
      exampleCatalog "3.2.0"
      ⟨[⟨"gradle-build", "/build.gradle"⟩, ⟨"maven-build", "/starter.zip"⟩]⟩ "/starter.zip"
      ⟨[("spring-boot.version", "3.2.0"), ("other.prop", "x"),
        ("spring-cloud.version", "2023.0.0")]⟩
      rfl rfl rfl (by decide) rfl rfl (by decide) rfl rfl (fun _ _ => rfl)).1,
    by decide⟩

/-- C7, as stated, fails: with output selector "stdout", every fetch and
every resolution succeeding, but standard output closed, `run` writes no
result line at all (not even "spring-boot=3.2.0") and returns the error of the
first write. -/
theorem run_closed_stdout_writes_nothing :
    exampleConfig.Output = "stdout" ∧
    closedStdoutEnv.httpGet 0 exampleConfig.Metadata.Boot exampleConfig.Metadata.Insecure
      = .ok "boot" ∧
    closedStdoutEnv.jsonBootMetadata "boot" = .ok exampleCatalog ∧
    exampleCatalog.getBootVersion exampleConfig.BootVersion = .ok "3.2.0" ∧
    closedStdoutEnv.httpGet 1 exampleConfig.Metadata.Starter exampleConfig.Metadata.Insecure
      = .ok "starter" ∧
    closedStdoutEnv.jsonStarterMetadata "starter"
      = .ok ⟨[⟨"gradle-build", "/build.gradle"⟩, ⟨"maven-build", "/starter.zip"⟩]⟩ ∧
    (StarterMetadata.mk [⟨"gradle-build", "/build.gradle"⟩,
      ⟨"maven-build", "/starter.zip"⟩]).getAction exampleConfig.TypeID = .ok "/starter.zip" ∧
    closedStdoutEnv.httpGet 2 "https://start.spring.io/starter.zip?BootVersion=3.2.0" false
      = .ok "pom" ∧
    closedStdoutEnv.xmlMavenProject "pom"
      = .ok ⟨[("spring-boot.version", "3.2.0"), ("other.prop", "x"),
          ("spring-cloud.version", "2023.0.0")]⟩ ∧
    run closedStdoutEnv exampleConfig emptyWorld
      = (.error "write /dev/stdout: file already closed",
          { stdout := []
            files := []
            requests :=
              [("https://api.spring.io/projects/spring-boot/releases", false),
                ("https://start.spring.io", false),
                ("https://start.spring.io/starter.zip?BootVersion=3.2.0", false)] }) := by
  decide

/-- C8, as stated, fails: with `-b 9.9.9` against the catalog [3.1.2, 3.2.0]
`run` fails with the error listing "3.1.2, 3.2.0", but it does produce output:
the progress message printed before the Boot metadata is fetched is on
standard output. -/
theorem run_unknown_version_prints_progress :
    run exampleEnv { exampleConfig with BootVersion := "9.9.9" } emptyWorld
      = (.error
          "spring-boot version '9.9.9' is not listed in current supported versions: 3.1.2, 3.2.0\n",
          { stdout :=
              ["Fetching Spring Boot Metadata from https://api.spring.io/projects/spring-boot/releases\n"]
            files := []
            requests := [("https://api.spring.io/projects/spring-boot/releases", false)] }) ∧
    (run exampleEnv { exampleConfig with BootVersion := "9.9.9" } emptyWorld).2.stdout ≠ [] := by
  decide

/-- C8, amended: for every configuration and every outside world, if one of
the steps of `run` (fetch Boot metadata, resolve Boot version, fetch Starter
metadata, resolve action, load project, write a line) fails, `run` returns
exactly that step's error and the world as that step left it, so none of the
later steps is performed; a failed write leaves the world unchanged.  In
particular with `-b 9.9.9` against the catalog [3.1.2, 3.2.0] `run` fails with
the error listing "3.1.2, 3.2.0", issues the Boot metadata request only and
writes no result line: no file is touched and standard output receives at most
the progress message "Fetching Spring Boot Metadata from <Boot URL>". -/
theorem run_short_circuit (env : Env) (c : Config) (w : World) :
    (∀ e w1,
      fromJson env env.jsonBootMetadata c.Metadata.Boot c.Metadata.Insecure
        (printf env "Fetching Spring Boot Metadata from %s\n" [c.Metadata.Boot] w) = (.error e, w1) →
      run env c w = (.error e, w1)) ∧
    (∀ boot w1 e,
      fromJson env env.jsonBootMetadata c.Metadata.Boot c.Metadata.Insecure
        (printf env "Fetching Spring Boot Metadata from %s\n" [c.Metadata.Boot] w) = (.ok boot, w1) →
      boot.getBootVersion c.BootVersion = .error e →
      run env c w = (.error e, w1)) ∧
    (∀ boot w1 version e w2,
      fromJson env env.jsonBootMetadata c.Metadata.Boot c.Metadata.Insecure
        (printf env "Fetching Spring Boot Metadata from %s\n" [c.Metadata.Boot] w) = (.ok boot, w1) →
      boot.getBootVersion c.BootVersion = .ok version →
      fromJson env env.jsonStarterMetadata c.Metadata.Starter c.Metadata.Insecure
        (printf env "Fetching Starter Metadata from %s\n" [c.Metadata.Starter] w1) = (.error e, w2) →
      run env c w = (.error e, w2)) ∧
    (∀ boot w1 version starter w2 e,
      fromJson env env.jsonBootMetadata c.Metadata.Boot c.Metadata.Insecure
        (printf env "Fetching Spring Boot Metadata from %s\n" [c.Metadata.Boot] w) = (.ok boot, w1) →
      boot.getBootVersion c.BootVersion = .ok version →
      fromJson env env.jsonStarterMetadata c.Metadata.Starter c.Metadata.Insecure
        (printf env "Fetching Starter Metadata from %s\n" [c.Metadata.Starter] w1) = (.ok starter, w2) →
      starter.getAction c.TypeID = .error e →
      run env c w = (.error e, w2)) ∧
    (∀ boot w1 version starter w2 action e w3,
      fromJson env env.jsonBootMetadata c.Metadata.Boot c.Metadata.Insecure
        (printf env "Fetching Spring Boot Metadata from %s\n" [c.Metadata.Boot] w) = (.ok boot, w1) →
      boot.getBootVersion c.BootVersion = .ok version →
      fromJson env env.jsonStarterMetadata c.Metadata.Starter c.Metadata.Insecure
        (printf env "Fetching Starter Metadata from %s\n" [c.Metadata.Starter] w1) = (.ok starter, w2) →
      starter.getAction c.TypeID = .ok action →
      loadMavenProject env (c.Metadata.Starter ++ action)
        { c with BootVersion := version } w2 = (.error e, w3) →
      run env c w = (.error e, w3)) ∧
    (∀ boot w1 version starter w2 action project w3 e w4,
      fromJson env env.jsonBootMetadata c.Metadata.Boot c.Metadata.Insecure
        (printf env "Fetching Spring Boot Metadata from %s\n" [c.Metadata.Boot] w) = (.ok boot, w1) →
      boot.getBootVersion c.BootVersion = .ok version →
      fromJson env env.jsonStarterMetadata c.Metadata.Starter c.Metadata.Insecure
        (printf env "Fetching Starter Metadata from %s\n" [c.Metadata.Starter] w1) = (.ok starter, w2) →
      starter.getAction c.TypeID = .ok action →
      loadMavenProject env (c.Metadata.Starter ++ action)
        { c with BootVersion := version } w2 = (.ok project, w3) →
      writeln env c.Output ("spring-boot=" ++ version) w3 = (.error e, w4) →
      run env c w = (.error e, w4)) ∧
    (∀ boot w1 version starter w2 action project w3 w4 before k v after w5 e w6,
      fromJson env env.jsonBootMetadata c.Metadata.Boot c.Metadata.Insecure
        (printf env "Fetching Spring Boot Metadata from %s\n" [c.Metadata.Boot] w) = (.ok boot, w1) →
      boot.getBootVersion c.BootVersion = .ok version →
      fromJson env env.jsonStarterMetadata c.Metadata.Starter c.Metadata.Insecure
        (printf env "Fetching Starter Metadata from %s\n" [c.Metadata.Starter] w1) = (.ok starter, w2) →
      starter.getAction c.TypeID = .ok action →
      loadMavenProject env (c.Metadata.Starter ++ action)
        { c with BootVersion := version } w2 = (.ok project, w3) →
      writeln env c.Output ("spring-boot=" ++ version) w3 = (.ok (), w4) →
      project.Properties = before ++ (k, v) :: after →
      writeProperties env c.Output before w4 = (.ok (), w5) →
      stringsHasPrefix k "spring" = true →
      writef env c.Output "%s=%s\n" [k, v] w5 = (.error e, w6) →
      run env c w = (.error e, w6)) ∧
    (∀ output text w0 e w1, write env output text w0 = (.error e, w1) → w1 = w0) ∧
    (∀ body f1 f2,
      c.BootVersion = "9.9.9" →
      env.httpGet w.requests.length c.Metadata.Boot c.Metadata.Insecure = .ok body →
      env.jsonBootMetadata body = .ok ⟨[⟨"3.1.2", f1⟩, ⟨"3.2.0", f2⟩]⟩ →
      ∃ out : List String,
        (out = [] ∨ out = ["Fetching Spring Boot Metadata from " ++ c.Metadata.Boot ++ "\n"]) ∧
        run env c w = (.error
          "spring-boot version '9.9.9' is not listed in current supported versions: 3.1.2, 3.2.0\n",
          { stdout := w.stdout ++ out
            files := w.files
            requests := w.requests ++ [(c.Metadata.Boot, c.Metadata.Insecure)] })) := by
  refine ⟨?_, ?_, ?_, ?_, ?_, ?_, ?_, ?_, ?_⟩
  · intro e w1 h1
    simp [run, h1]
  · intro boot w1 e h1 h2
    simp [run, h1, h2]
  · intro boot w1 version e w2 h1 h2 h3
    simp [run, h1, h2, h3]
  · intro boot w1 version starter w2 e h1 h2 h3 h4
    simp [run, h1, h2, h3, h4]
  · intro boot w1 version starter w2 action e w3 h1 h2 h3 h4 h5
    simp [run, h1, h2, h3, h4, h5]
  · intro boot w1 version starter w2 action project w3 e w4 h1 h2 h3 h4 h5 h6
    simp [run, h1, h2, h3, h4, h5, h6]
  · intro boot w1 version starter w2 action project w3 w4 before k v after w5 e w6
      h1 h2 h3 h4 h5 h6 h7 h8 h9 h10
    have hloop : writeProperties env c.Output project.Properties w4 = (.error e, w6) := by
      rw [h7, writeProperties_append, h8]
      simp [writeProperties, h9, h10]
    simp [run, h1, h2, h3, h4, h5, h6, hloop]
  · intro output text w0 e w1 h
    exact write_error_world env output text w0 w1 e h
  · intro body f1 f2 hb hget hjson
    have hver : (BootMetadata.mk [⟨"3.1.2", f1⟩, ⟨"3.2.0", f2⟩]).getBootVersion "9.9.9"
        = .error
          "spring-boot version '9.9.9' is not listed in current supported versions: 3.1.2, 3.2.0\n" := by
      cases f1 <;> cases f2 <;> decide
    have hreq := printf_requests env "Fetching Spring Boot Metadata from %s\n"
      [c.Metadata.Boot] w
    have hfiles := printf_files env "Fetching Spring Boot Metadata from %s\n"
      [c.Metadata.Boot] w
    have hrun : run env c w = (.error
          "spring-boot version '9.9.9' is not listed in current supported versions: 3.1.2, 3.2.0\n",
          { stdout := (printf env "Fetching Spring Boot Metadata from %s\n"
              [c.Metadata.Boot] w).stdout
            files := w.files
            requests := w.requests ++ [(c.Metadata.Boot, c.Metadata.Insecure)] }) := by
      simp [run, fromJson, hreq, hfiles, hget, hjson, hb, hver]
    rcases printf_stdout env "Fetching Spring Boot Metadata from %s\n" [c.Metadata.Boot] w
      with hs | hs
    · exact ⟨[], Or.inl rfl, by rw [hrun, hs]; simp⟩
    · exact ⟨_, Or.inr rfl, by rw [hrun, hs, sprintf_fetching_boot]⟩

end SpringVersion
